import Mathlib

/-!
Verification of the RunOnes matchmaking core against its specification.

The embedding covers:
- `src/utils/mm_logic.py` : the compatibility scorer (`compat_score`);
- `src/config/config.py`  : the matchmaking configuration constants;
- `src/core/app.py`       : the blocking matchmaking endpoint `match_or_queue`
  and the SSE streaming endpoint `match_stream` (threshold decay, the
  candidate-scan/commit cycle, the upsert enqueue, the timeout loop, and a
  two-invocation concurrency model of the commit race).

Python `float` arithmetic over the small decimal constants involved is
modelled with `ℚ` (all values reached in the claims are exact decimals);
Python `int` is modelled with `ℤ`; preference dicts are modelled as
association lists.
-/

namespace RunOnes

/-- Preference dictionaries (`prefs`): modelled as string-keyed association
lists; `compat_score` never inspects them, so only their type matters. -/
abbrev Prefs := List (String × String)

/-! ## Configuration (`src/config/config.py`) -/

/-- Config line 15: `BASE_ETA_SECONDS = 20`. -/
def BASE_ETA_SECONDS : ℤ := 20

/-- Config line 16: `MATCHMAKING_TIMEOUT = 120` (seconds). -/
def MATCHMAKING_TIMEOUT : ℕ := 120

/-- Config line 17: `MATCHMAKING_POLL_INTERVAL = 2` (seconds). -/
def MATCHMAKING_POLL_INTERVAL : ℕ := 2

/-- Config line 20: `INITIAL_COMPAT_THRESHOLD = 9.0`. -/
def INITIAL_COMPAT_THRESHOLD : ℚ := 9.0

/-- Config line 21: `MINIMUM_COMPAT_THRESHOLD = 3.0`. -/
def MINIMUM_COMPAT_THRESHOLD : ℚ := 3.0

/-- Config line 22: `DECAY_RATE_PER_SECOND = 0.05`. -/
def DECAY_RATE_PER_SECOND : ℚ := 0.05

/-! ## Compatibility scorer (`src/utils/mm_logic.py`, lines 6-10)

```python
def compat_score(elo1: int, prefs1: dict, elo2: int, prefs2: dict) -> int:
    # Replace with your real logic; must return 1..10
    score = 10 - abs(elo1 - elo2) // 100
    out = max(1, min(10, score))
    return 7
```
The computed `score` and `out` are dead code: the function returns the
hardcoded constant `7`. Both the dead computation and the returned value are
embedded so that theorems can speak about each. -/

/-- Embedding of `compat_score` exactly as the source has it: `score` and
`out` are computed (Python `//` on a non-negative numerator is integer
division) and then discarded by the hardcoded `return 7`. -/
def compat_score (elo1 : ℤ) ( prefs1 : Prefs) (elo2 : ℤ) ( prefs2 : Prefs) : ℤ :=
  let score : ℤ := 10 - ((elo1 - elo2).natAbs : ℤ) / 100
  let out : ℤ := max 1 (min 10 score)
  7

/-- Value of the local variable `out` at `mm_logic.py` line 9: the clamped
rating-difference score that line 10 discards in favour of the constant 7. -/
def compat_score_clamped (elo1 elo2 : ℤ) : ℤ :=
  max 1 (min 10 (10 - ((elo1 - elo2).natAbs : ℤ) / 100))

/-! ## Threshold decay (`src/core/app.py`, lines 310-315 and 509-513)

```python
adjusted_threshold = max(
    MINIMUM_COMPAT_THRESHOLD,
    INITIAL_COMPAT_THRESHOLD - (wait_time * DECAY_RATE_PER_SECOND)
)
```
-/

/-- Embedding of the per-cycle threshold computation: the initial threshold
decayed linearly in the wait time, clamped below at the minimum. -/
def adjusted_threshold (wait_time : ℚ) : ℚ :=
  max MINIMUM_COMPAT_THRESHOLD
    (INITIAL_COMPAT_THRESHOLD - wait_time * DECAY_RATE_PER_SECOND)

/-! ## Claims C5, C9, C10, C3 -/

/-- C5: for wait times `w ≥ 0` the decayed threshold equals the initial
threshold minus the decay rate times `w`, clamped below at the configured
minimum; it is monotonically non-increasing in the wait, never falls below
the minimum, and equals the initial value (9.0) at `w = 0`. -/
theorem adjusted_threshold_decay_spec (w w1 w2 : ℚ) (hw : 0 ≤ w) (h12 : w1 ≤ w2) :
    adjusted_threshold 0 = INITIAL_COMPAT_THRESHOLD ∧
    MINIMUM_COMPAT_THRESHOLD ≤ adjusted_threshold w ∧
    adjusted_threshold w2 ≤ adjusted_threshold w1 ∧
    adjusted_threshold w =
      max MINIMUM_COMPAT_THRESHOLD (INITIAL_COMPAT_THRESHOLD - DECAY_RATE_PER_SECOND * w) := by
  refine ⟨?_, le_max_left _ _, ?_, by rw [adjusted_threshold, mul_comm]⟩
  · unfold adjusted_threshold INITIAL_COMPAT_THRESHOLD MINIMUM_COMPAT_THRESHOLD
      DECAY_RATE_PER_SECOND
    norm_num
  · unfold adjusted_threshold
    exact max_le_max le_rfl (by
      have : 0 ≤ DECAY_RATE_PER_SECOND := by norm_num [DECAY_RATE_PER_SECOND]
      nlinarith)

/-- Witness for C5 at the concrete waits `w = 1`, `w1 = 1`, `w2 = 2`. -/
theorem adjusted_threshold_decay_spec_witness :
    adjusted_threshold 0 = INITIAL_COMPAT_THRESHOLD ∧
    MINIMUM_COMPAT_THRESHOLD ≤ adjusted_threshold 1 ∧
    adjusted_threshold 2 ≤ adjusted_threshold 1 ∧
    adjusted_threshold 1 =
      max MINIMUM_COMPAT_THRESHOLD (INITIAL_COMPAT_THRESHOLD - DECAY_RATE_PER_SECOND * 1) :=
  adjusted_threshold_decay_spec 1 1 2 (by norm_num) (by norm_num)

/-- C9: the compatibility scorer is symmetric under swapping the two players
and always returns a value inside the integer range [1, 10]. -/
theorem compat_score_symm_and_bounded (e1 e2 : ℤ) (p1 p2 : Prefs) :
    compat_score e1 p1 e2 p2 = compat_score e2 p2 e1 p1 ∧
    1 ≤ compat_score e1 p1 e2 p2 ∧ compat_score e1 p1 e2 p2 ≤ 10 := by
  have h : compat_score e1 p1 e2 p2 = 7 := rfl
  exact ⟨rfl, by rw [h]; norm_num, by rw [h]; norm_num⟩

/-- C10: `compat_score` returns the constant 7 on every input, independently
of both ratings and both preference dicts; the clamped rating-difference
value computed on the preceding lines has no effect (at ratings 1500 and
2900 that value is 1, yet the function still returns 7). -/
theorem compat_score_constant_seven (e1 e2 e3 e4 : ℤ) (p1 p2 p3 p4 : Prefs) :
    compat_score e1 p1 e2 p2 = 7 ∧
    compat_score e1 p1 e2 p2 = compat_score e3 p3 e4 p4 ∧
    compat_score_clamped 1500 2900 = 1 ∧
    compat_score 1500 [] 2900 [] ≠ compat_score_clamped 1500 2900 := by
  refine ⟨rfl, rfl, by decide, by decide⟩

/-- C3 (code bug evidence): for ratings 1500 and 1520 at wait 0 the scorer
returns the hardcoded 7, which does NOT clear the initial threshold 9.0, so
the engine cannot commit on the first scan cycle; the clamped score that
`mm_logic.py` computes and then discards is 10, which WOULD clear it. -/
theorem first_cycle_no_commit_for_close_ratings :
    compat_score 1500 [] 1520 [] = 7 ∧
    ¬ ((compat_score 1500 [] 1520 [] : ℚ) ≥ adjusted_threshold 0) ∧
    compat_score_clamped 1500 1520 = 10 ∧
    ((compat_score_clamped 1500 1520 : ℚ) ≥ adjusted_threshold 0) := by
  refine ⟨rfl, ?_, by decide, ?_⟩
  · have h : compat_score 1500 [] 1520 [] = 7 := rfl
    rw [h]
    unfold adjusted_threshold INITIAL_COMPAT_THRESHOLD MINIMUM_COMPAT_THRESHOLD
      DECAY_RATE_PER_SECOND
    push_cast
    norm_num
  · have h : compat_score_clamped 1500 1520 = 10 := by decide
    rw [h]
    unfold adjusted_threshold INITIAL_COMPAT_THRESHOLD MINIMUM_COMPAT_THRESHOLD
      DECAY_RATE_PER_SECOND
    push_cast
    norm_num

/-! ## Ticket status and the lone-player timeout run (`app.py` lines 293-418)

The scenario of C8: one player queued in an area with no other tickets. Each
scan cycle then finds no existing match and an empty candidate list, so the
loop body falls through to the poll-interval sleep. Times are idealised the
way the spec's scenario does: store calls take zero time, so the elapsed
clock advances only by `MATCHMAKING_POLL_INTERVAL` per cycle and every time
reached is a whole number of seconds (modelled in `ℕ`). -/

/-- Status column of an `mm_ticket` row. -/
inductive TicketStatus where
  | queued
  | matched
  | closed
deriving DecidableEq, Repr

/-- Embedding of `update mm_ticket set status='closed' where user_id=%s and
status='queued'` (app.py lines 405-409) acting on one player's row: a queued
row becomes closed, any other status is untouched. -/
def markClosed (s : TicketStatus) : TicketStatus :=
  if s = .queued then .closed else s

/-- Embedding of the blocking search loop (app.py lines 305-400) specialised
to an empty area: `attempt` counts iterations, `elapsed` is the idealised
wall clock; every cycle finds nothing and sleeps one poll interval; the loop
exits when `elapsed` reaches the timeout and returns the attempt counter. -/
def match_or_queue_lone_loop (elapsed attempt : ℕ) : ℕ :=
  if elapsed < MATCHMAKING_TIMEOUT then
    match_or_queue_lone_loop (elapsed + MATCHMAKING_POLL_INTERVAL) (attempt + 1)
  else attempt
termination_by MATCHMAKING_TIMEOUT - elapsed
decreasing_by
  unfold MATCHMAKING_TIMEOUT MATCHMAKING_POLL_INTERVAL at *
  omega

/-- Closed form of the lone-player loop: with `2 * n` seconds left before
the timeout, exactly `n` further cycles run. -/
theorem match_or_queue_lone_loop_closed (n : ℕ) :
    ∀ a : ℕ, 2 * n ≤ 120 →
      match_or_queue_lone_loop (120 - 2 * n) a = a + n := by
  induction n with
  | zero =>
      intro a _
      rw [match_or_queue_lone_loop]
      simp [MATCHMAKING_TIMEOUT]
  | succ n ih =>
      intro a hn
      rw [match_or_queue_lone_loop]
      have h1 : 120 - 2 * (n + 1) < MATCHMAKING_TIMEOUT := by
        unfold MATCHMAKING_TIMEOUT; omega
      rw [if_pos h1]
      have h2 : 120 - 2 * (n + 1) + MATCHMAKING_POLL_INTERVAL = 120 - 2 * n := by
        unfold MATCHMAKING_POLL_INTERVAL; omega
      rw [h2, ih (a + 1) (by omega)]
      omega

/-- C8: a lone player in an empty area reaches the timeout exit after
exactly 60 scan cycles — which is `ceil(120 / 2)` — with the reported
attempts counter equal to 60, and the player's still-queued ticket is
updated (not deleted) to the terminal status `closed`. -/
theorem lone_player_timeout_spec :
    match_or_queue_lone_loop 0 0 = 60 ∧
    (MATCHMAKING_TIMEOUT + MATCHMAKING_POLL_INTERVAL - 1) / MATCHMAKING_POLL_INTERVAL = 60 ∧
    markClosed .queued = .closed := by
  refine ⟨?_, by decide, by decide⟩
  have h := match_or_queue_lone_loop_closed 60 0 (by omega)
  simpa using h

/-! ## Streaming adapter events (`app.py` lines 421-605)

The SSE generator pushes: one `queued` event after the enqueue (line 501), a
`searching` event only when `attempt % 3 == 0` (lines 564-565), a `matched`
event on either commit path, and one `timeout` event after the loop (line
603) after which the generator returns. The lone-player specialisation
below mirrors `match_stream`'s `generate()` the same way
`match_or_queue_lone_loop` mirrors the blocking loop. -/

/-- One server-sent event of `match_stream`, carrying the payload fields the
claims speak about (wall-clock timestamps elided). -/
inductive SSEEvent where
  | queued (queue_size : ℕ) (area : String)
  | searching (attempt : ℕ) (wait_time : ℕ) (threshold : ℚ)
      (best_score : Option ℤ) (candidates : ℕ)
  | matched (match_id : ℕ) (compat : ℤ) (attempts : ℕ)
  | timeout (wait_time : ℕ) (attempts : ℕ)
deriving DecidableEq, Repr

/-- Embedding of the SSE search loop (app.py lines 504-603) specialised to
an empty area: each cycle finds no existing match and no candidates (so
`best` is `None` and nothing commits), emits a `searching` event exactly
when the attempt number is divisible by 3, and after the timeout emits the
final `timeout` event and stops. -/
def match_stream_lone_loop (elapsed attempt : ℕ) : List SSEEvent :=
  if elapsed < MATCHMAKING_TIMEOUT then
    (if (attempt + 1) % 3 = 0 then
      [.searching (attempt + 1) elapsed (adjusted_threshold elapsed) none 0]
     else []) ++
    match_stream_lone_loop (elapsed + MATCHMAKING_POLL_INTERVAL) (attempt + 1)
  else [.timeout elapsed attempt]
termination_by MATCHMAKING_TIMEOUT - elapsed
decreasing_by
  unfold MATCHMAKING_TIMEOUT MATCHMAKING_POLL_INTERVAL at *
  omega

/-- Full event trace of a lone player's `match_stream` call in the empty
area "north": the initial `queued` event (queue size 0 was read before the
player's own enqueue) followed by the loop's events. -/
def match_stream_lone_trace : List SSEEvent :=
  .queued 0 "north" :: match_stream_lone_loop 0 0

/-- Structural closed form of the searching events the lone-player loop
emits over its remaining cycles: attempts `a+1 .. a+n`, an event exactly at
the attempts divisible by 3, at entry clock `2 * a`. -/
def lone_searching_events : ℕ → ℕ → List SSEEvent
  | _, 0 => []
  | a, n + 1 =>
      (if (a + 1) % 3 = 0 then
        [.searching (a + 1) (2 * a) (adjusted_threshold (2 * a)) none 0]
       else []) ++ lone_searching_events (a + 1) n

/-- Boolean test for a searching event with a given attempt number. -/
def searching_for_attempt (a : ℕ) : SSEEvent → Bool
  | .searching a9 _ _ _ _ => a9 = a
  | _ => false

/-- Boolean test for any searching event. -/
def is_searching : SSEEvent → Bool
  | .searching _ _ _ _ _ => true
  | _ => false

/-- Closed form of the lone-player stream loop: with `2 * n` seconds left it
emits the searching events for the next `n` attempts and then the timeout
event carrying clock 120 and the final attempt counter. -/
theorem match_stream_lone_loop_closed (n : ℕ) :
    ∀ a : ℕ, 2 * (n + a) = 120 →
      match_stream_lone_loop (2 * a) a =
        lone_searching_events a n ++ [.timeout 120 (a + n)] := by
  induction n with
  | zero =>
      intro a ha
      rw [match_stream_lone_loop]
      have h0 : ¬ (2 * a < MATCHMAKING_TIMEOUT) := by
        unfold MATCHMAKING_TIMEOUT; omega
      rw [if_neg h0]
      have h2a : 2 * a = 120 := by omega
      simp [lone_searching_events, h2a, ha]
  | succ n ih =>
      intro a ha
      rw [match_stream_lone_loop]
      have h1 : 2 * a < MATCHMAKING_TIMEOUT := by
        unfold MATCHMAKING_TIMEOUT; omega
      rw [if_pos h1]
      have h2 : 2 * a + MATCHMAKING_POLL_INTERVAL = 2 * (a + 1) := by
        unfold MATCHMAKING_POLL_INTERVAL; omega
      rw [h2, ih (a + 1) (by omega)]
      simp [lone_searching_events, List.append_assoc]
      omega

/-- Every searching event emitted by the lone-player loop closed form has an
attempt number divisible by 3 and a zero candidate count. -/
theorem lone_searching_events_mod3 (n : ℕ) :
    ∀ a0 a w t b c, SSEEvent.searching a w t b c ∈ lone_searching_events a0 n →
      a % 3 = 0 ∧ c = 0 := by
  induction n with
  | zero => intro a0 a w t b c h; simp [lone_searching_events] at h
  | succ n ih =>
      intro a0 a w t b c h
      rw [lone_searching_events] at h
      rcases List.mem_append.mp h with h1 | h2
      · by_cases h3 : (a0 + 1) % 3 = 0
        · rw [if_pos h3] at h1
          simp at h1
          exact ⟨by omega, h1.2.2.2.2⟩
        · rw [if_neg h3] at h1
          simp at h1
      · exact ih (a0 + 1) a w t b c h2

/-- C4 counterexample: cycle 1 of the lone-player stream run is a scanning
cycle in which no candidate clears the threshold, yet the trace contains no
searching observation for attempt 1 (the first one appears at attempt 3). -/
theorem stream_cycle_one_emits_nothing :
    (match_stream_lone_trace.countP (searching_for_attempt 1) = 0) ∧
    (match_stream_lone_trace.countP (searching_for_attempt 3) = 1) := by
  have h := match_stream_lone_loop_closed 60 0 (by omega)
  simp only [Nat.mul_zero] at h
  rw [match_stream_lone_trace, h]
  decide

/-- C4 amended: the streaming adapter pushes one observation at Queued
entry, a "searching" observation only on every third scanning cycle
(attempt numbers divisible by 3) rather than after every cycle, and one
final terminal observation after which it produces nothing further. -/
theorem match_stream_observation_schedule :
    match_stream_lone_trace =
      SSEEvent.queued 0 "north" ::
        (lone_searching_events 0 60 ++ [SSEEvent.timeout 120 60]) ∧
    (∀ a w t b c, SSEEvent.searching a w t b c ∈ match_stream_lone_trace →
      a % 3 = 0 ∧ c = 0) ∧
    match_stream_lone_trace.getLast? = some (SSEEvent.timeout 120 60) ∧
    (match_stream_lone_trace.filter is_searching).length = 20 := by
  have h := match_stream_lone_loop_closed 60 0 (by omega)
  simp only [Nat.mul_zero] at h
  have htr : match_stream_lone_trace =
      SSEEvent.queued 0 "north" ::
        (lone_searching_events 0 60 ++ [SSEEvent.timeout 120 60]) := by
    rw [match_stream_lone_trace, h]
  refine ⟨htr, ?_, ?_, ?_⟩
  · intro a w t b c hmem
    rw [htr] at hmem
    rcases List.mem_cons.mp hmem with h1 | h2
    · exact absurd h1 (by simp)
    · rcases List.mem_append.mp h2 with h3 | h4
      · exact lone_searching_events_mod3 60 0 a w t b c h3
      · exact absurd h4 (by simp)
  · rw [htr]; decide
  · rw [htr]; decide

/-! ## Ticket rows and the enqueue upsert (`app.py` lines 293-302)

```sql
insert into mm_ticket (user_id, area, elo, prefs, status, created_at)
values (%s, %s, %s, %s, 'queued', NOW())
on conflict (user_id) where mm_ticket.status='queued'
do update set area=excluded.area, elo=excluded.elo, prefs=excluded.prefs,
              created_at=NOW()
```
The conflict arbiter is the partial unique index on `user_id` over rows with
`status='queued'`: if the player already owns a queued row, that row's
`area`, `elo`, `prefs` and `created_at` are refreshed in place; otherwise a
fresh queued row is inserted. -/

/-- One row of the `mm_ticket` table. -/
structure TicketRow where
  user_id : String
  area : String
  elo : ℤ
  prefs : Prefs
  status : TicketStatus
  created_at : ℚ
deriving DecidableEq, Repr

/-- Test for the conflict target of the upsert: a queued row owned by the
given player. -/
def is_queued_for (uid : String) (t : TicketRow) : Bool :=
  t.user_id == uid && t.status == TicketStatus.queued

/-- Embedding of the enqueue upsert: refresh the existing queued row of the
player if one exists, otherwise append a fresh queued row. `now` stands for
the store's `NOW()`. -/
def upsertQueued (tbl : List TicketRow) (uid area : String) (elo : ℤ)
    (prefs : Prefs) (now : ℚ) : List TicketRow :=
  if tbl.any (is_queued_for uid) then
    tbl.map (fun t => if is_queued_for uid t then
      { t with area := area, elo := elo, prefs := prefs, created_at := now }
    else t)
  else
    tbl ++ [⟨uid, area, elo, prefs, .queued, now⟩]

/-- Invariant of the `mm_ticket` table: at most one queued row per player
id (what the partial unique index enforces). -/
def atMostOneQueuedPer (tbl : List TicketRow) : Prop :=
  ∀ uid : String, tbl.countP (is_queued_for uid) ≤ 1

/-- Applying the row-refresh of the upsert does not change which player a
row belongs to nor whether it is queued. -/
theorem is_queued_for_refresh (uid u : String) (area : String) (elo : ℤ)
    (prefs : Prefs) (now : ℚ) (t : TicketRow) :
    is_queued_for u (if is_queued_for uid t then
        { t with area := area, elo := elo, prefs := prefs, created_at := now }
      else t) = is_queued_for u t := by
  by_cases h : is_queued_for uid t
  · rw [if_pos h]
    simp [is_queued_for]
  · rw [if_neg h]

/-- C6: the upsert preserves the at-most-one-queued-row-per-player
invariant, and a re-submission by a player who already owns a queued row
refreshes that row's area, rating, preferences and creation timestamp in
place — the table keeps its length, so no second queued row appears. -/
theorem upsertQueued_spec (tbl : List TicketRow) (uid area : String)
    (elo : ℤ) (prefs : Prefs) (now : ℚ)
    (hinv : atMostOneQueuedPer tbl) :
    atMostOneQueuedPer (upsertQueued tbl uid area elo prefs now) ∧
    (tbl.any (is_queued_for uid) = true →
      (upsertQueued tbl uid area elo prefs now).length = tbl.length ∧
      ∀ t ∈ upsertQueued tbl uid area elo prefs now,
        is_queued_for uid t = true →
          t.area = area ∧ t.elo = elo ∧ t.prefs = prefs ∧ t.created_at = now) := by
  constructor
  · intro u
    unfold upsertQueued
    by_cases h : tbl.any (is_queued_for uid)
    · rw [if_pos h, List.countP_map]
      calc tbl.countP (is_queued_for u ∘ fun t =>
              if is_queued_for uid t then
                { t with area := area, elo := elo, prefs := prefs, created_at := now }
              else t)
          = tbl.countP (is_queued_for u) :=
            List.countP_congr (fun t _ => by
              simp only [Function.comp_apply, is_queued_for_refresh uid u area elo prefs now t])
        _ ≤ 1 := hinv u
    · rw [if_neg h, List.countP_append]
      by_cases hu : u = uid
      · subst hu
        have h0 : tbl.countP (is_queued_for u) = 0 := by
          rw [List.countP_eq_zero]
          intro t ht
          have := List.any_eq_true.not.mp h
          push_neg at this
          exact this t ht
        rw [h0]
        simp [is_queued_for]
      · have h1 : List.countP (is_queued_for u) [(⟨uid, area, elo, prefs, .queued, now⟩ : TicketRow)] = 0 := by
          simp [is_queued_for, Ne.symm hu]
        rw [h1]
        simpa using hinv u
  · intro hq
    unfold upsertQueued
    rw [if_pos hq]
    refine ⟨List.length_map _ _, ?_⟩
    intro t ht htq
    rcases List.mem_map.mp ht with ⟨s, _, hs⟩
    by_cases h : is_queued_for uid s
    · rw [if_pos h] at hs
      rw [← hs]
      exact ⟨rfl, rfl, rfl, rfl⟩
    · rw [if_neg h] at hs
      rw [hs] at h
      exact absurd htq (by simpa using h)

/-- Witness for C6: a table holding one queued row for player "p1" whose
re-submission with new area/rating/timestamp refreshes in place. -/
theorem upsertQueued_spec_witness :
    atMostOneQueuedPer
      (upsertQueued [⟨"p1", "north", 1500, [], .queued, 0⟩] "p1" "south" 1510 [] 5) ∧
    ([(⟨"p1", "north", 1500, [], .queued, 0⟩ : TicketRow)].any (is_queued_for "p1") = true →
      (upsertQueued [⟨"p1", "north", 1500, [], .queued, 0⟩] "p1" "south" 1510 [] 5).length
        = [(⟨"p1", "north", 1500, [], .queued, 0⟩ : TicketRow)].length ∧
      ∀ t ∈ upsertQueued [⟨"p1", "north", 1500, [], .queued, 0⟩] "p1" "south" 1510 [] 5,
        is_queued_for "p1" t = true →
          t.area = "south" ∧ t.elo = 1510 ∧ t.prefs = [] ∧ t.created_at = 5) :=
  upsertQueued_spec [⟨"p1", "north", 1500, [], .queued, 0⟩] "p1" "south" 1510 [] 5
    (by
      intro u
      exact le_trans (List.countP_le_length _) (by simp))

/-! ## The pre-loop phase of `match_or_queue` (`app.py` lines 251-302)

Order of operations in the source: reject if `user_id` is missing from the
payload; reject with the active match's id if an incomplete `match_tx` row
involves the player; reject if no `users` row exists; only then run the
enqueue upsert. Every rejection returns before any `mm_ticket` statement. -/

/-- One row of the `match_tx` table (fields the matchmaking core touches). -/
structure MatchRow where
  id : ℕ
  area : String
  user_one_id : String
  user_two_id : String
  compat_score : ℤ
  is_complete : Bool
deriving DecidableEq, Repr

/-- One row of the `users` table (fields the matchmaking core reads). -/
structure UserRow where
  user_uid : String
  area : String
  elo : ℤ
  preferences : Prefs
deriving DecidableEq, Repr

/-- Shared store state visible to the matchmaking endpoints. -/
structure DBState where
  users : List UserRow
  mm_ticket : List TicketRow
  match_tx : List MatchRow
deriving Repr

/-- Embedding of `select id from match_tx where (user_one_id = %s or
user_two_id = %s) and is_complete = false limit 1`. -/
def find_incomplete_match (rows : List MatchRow) (uid : String) : Option MatchRow :=
  rows.find? (fun m => (m.user_one_id == uid || m.user_two_id == uid) && !m.is_complete)

/-- Embedding of the profile lookup `select ... from users u where
u.user_uid = %s`. -/
def find_user (users : List UserRow) (uid : String) : Option UserRow :=
  users.find? (fun u => u.user_uid == uid)

/-- Rejection outcomes of `match_or_queue` before the search loop starts. -/
inductive FindMatchReject where
  | missingUserId
  | alreadyActive (match_id : ℕ)
  | userNotFound
deriving DecidableEq, Repr

/-- Embedding of the pre-loop phase of `match_or_queue`: validation, the
active-match check, the profile lookup, then (only on success) the enqueue
upsert with the player's current area/rating/preferences. Returns the
outcome together with the store state after the phase. -/
def match_or_queue_setup (db : DBState) (user_id : Option String) (now : ℚ) :
    Except FindMatchReject UserRow × DBState :=
  match user_id with
  | none => (.error .missingUserId, db)
  | some uid =>
    match find_incomplete_match db.match_tx uid with
    | some m => (.error (.alreadyActive m.id), db)
    | none =>
      match find_user db.users uid with
      | none => (.error .userNotFound, db)
      | some u =>
        (.ok u,
         { db with mm_ticket :=
             upsertQueued db.mm_ticket uid u.area u.elo u.preferences now })

/-- C7: a missing user id, an unknown user id, or an existing incomplete
contest each terminate `findMatch` immediately with the corresponding error
outcome, and on every such error path the `mm_ticket` table is left exactly
as it was — no row is created or mutated. -/
theorem match_or_queue_setup_error_paths (db : DBState) (uid : String) (now : ℚ) :
    match_or_queue_setup db none now = (.error .missingUserId, db) ∧
    (∀ m, find_incomplete_match db.match_tx uid = some m →
      match_or_queue_setup db (some uid) now = (.error (.alreadyActive m.id), db)) ∧
    (find_incomplete_match db.match_tx uid = none →
      find_user db.users uid = none →
      match_or_queue_setup db (some uid) now = (.error .userNotFound, db)) ∧
    (∀ e, (match_or_queue_setup db (some uid) now).1 = .error e →
      (match_or_queue_setup db (some uid) now).2.mm_ticket = db.mm_ticket) := by
  refine ⟨rfl, ?_, ?_, ?_⟩
  · intro m hm
    simp only [match_or_queue_setup]
    rw [hm]
  · intro h1 h2
    simp only [match_or_queue_setup]
    rw [h1, h2]
  · intro e he
    simp only [match_or_queue_setup] at he ⊢
    cases h1 : find_incomplete_match db.match_tx uid with
    | some m => rfl
    | none =>
      cases h2 : find_user db.users uid with
      | some u =>
          rw [h1, h2] at he
          exact Except.noConfusion he
      | none => rfl

/-- Witness for C7: a store where player "p1" already has an incomplete
contest (row id 1); the call is rejected as already-active and the ticket
table — holding one unrelated row — is untouched. -/
theorem match_or_queue_setup_error_paths_witness :
    match_or_queue_setup
        ⟨[⟨"p1", "north", 1500, []⟩],
         [⟨"p2", "north", 1480, [], .queued, 0⟩],
         [⟨1, "north", "p1", "p3", 7, false⟩]⟩
        (some "p1") 0
      = (.error (.alreadyActive 1),
         ⟨[⟨"p1", "north", 1500, []⟩],
          [⟨"p2", "north", 1480, [], .queued, 0⟩],
          [⟨1, "north", "p1", "p3", 7, false⟩]⟩) :=
  (match_or_queue_setup_error_paths
      ⟨[⟨"p1", "north", 1500, []⟩],
       [⟨"p2", "north", 1480, [], .queued, 0⟩],
       [⟨1, "north", "p1", "p3", 7, false⟩]⟩
      "p1" 0).2.1 ⟨1, "north", "p1", "p3", 7, false⟩ (by decide)

/-- Witness for the amended C4 at the concrete searching event of attempt 3
(the first one the stream emits), which indeed has 3 ∣ 3 and 0 candidates. -/
theorem match_stream_observation_schedule_witness : 3 % 3 = 0 ∧ (0 : ℕ) = 0 :=
  match_stream_observation_schedule.2.1 3 4 (adjusted_threshold 4) none 0 (by
    rw [match_stream_observation_schedule.1]
    simp [lone_searching_events]
    norm_num)

/-! ## Exception flow of one search cycle (`app.py` lines 317-400)

The whole per-cycle store transaction — the existing-match check, the
locked candidate scan, and the commit statements (the `match_tx` insert,
the `markMatched` update, the deletion of the caller's own ticket) — sits
inside `try: ... except Exception as e: print(...)`, after which the loop
sleeps and continues. The enqueue upsert (lines 295-302) sits OUTSIDE any
handler, so an exception there propagates out of the endpoint. Store calls
are modelled as `Except` values supplied by an abstract `CycleStore`. -/

/-- A store-level failure (psycopg exception). -/
inductive StoreErr where
  | transient
deriving DecidableEq, Repr

/-- Candidate row returned by the locked scan (app.py line 358). -/
structure Candidate where
  ticket_id : ℕ
  user_id : String
  elo : ℤ
  prefs : Prefs
deriving DecidableEq, Repr

/-- Embedding of the best-candidate fold (app.py lines 363-369): running
best starts at `(None, -1)` and is replaced only on strict improvement, so
the first candidate attaining the maximum wins. -/
def best_candidate (me_elo : ℤ) (me_prefs : Prefs) (cands : List Candidate) :
    Option Candidate × ℤ :=
  cands.foldl
    (fun acc c =>
      let s := compat_score me_elo me_prefs c.elo c.prefs
      if s > acc.2 then (some c, s) else acc)
    (none, -1)

/-- Store operations one scan cycle performs, each able to fail. -/
structure CycleStore where
  fetchExistingMatch : Except StoreErr (Option (ℕ × ℤ))
  lockScanCandidates : Except StoreErr (List Candidate)
  insertMatchTx : String → ℤ → Except StoreErr ℕ
  markTicketMatched : ℕ → Except StoreErr Unit
  deleteOwnQueuedTicket : Except StoreErr Unit

/-- Result of one scan cycle when no exception escapes it. -/
inductive CycleOutcome where
  | matchedByOpponent (match_id : ℕ) (compat : ℤ)
  | matchedSelf (match_id : ℕ) (compat : ℤ)
  | noMatch
deriving DecidableEq, Repr

/-- Sequencing of two store calls: a failure of the first propagates (the
Python exception), otherwise the continuation runs. -/
def tryStep {α β : Type} (x : Except StoreErr α) (k : α → Except StoreErr β) :
    Except StoreErr β :=
  match x with
  | .error e => .error e
  | .ok a => k a

/-- Running `tryStep` on a successful store call runs the continuation. -/
theorem tryStep_ok {α β : Type} (a : α) (k : α → Except StoreErr β) :
    tryStep (.ok a) k = k a := rfl

/-- Running `tryStep` on a failing store call propagates the failure. -/
theorem tryStep_error {α β : Type} (e : StoreErr) (k : α → Except StoreErr β) :
    tryStep (.error e) k = .error e := rfl

/-- Embedding of the body of the `try:` block (app.py lines 318-392): check
whether an opponent already matched us (then delete our ticket and finish),
otherwise scan and score candidates and, if the best clears the threshold,
run the commit statements in source order. -/
def cycle_body (st : CycleStore) (me_elo : ℤ) (me_prefs : Prefs) (thr : ℚ) :
    Except StoreErr CycleOutcome :=
  tryStep st.fetchExistingMatch fun existing =>
    match existing with
    | some (mid, compat) =>
        tryStep st.deleteOwnQueuedTicket fun _ =>
          .ok (.matchedByOpponent mid compat)
    | none =>
        tryStep st.lockScanCandidates fun cands =>
          match best_candidate me_elo me_prefs cands with
          | (some best, best_score) =>
              if (best_score : ℚ) ≥ thr then
                tryStep (st.insertMatchTx best.user_id best_score) fun mid =>
                  tryStep (st.markTicketMatched best.ticket_id) fun _ =>
                    tryStep st.deleteOwnQueuedTicket fun _ =>
                      .ok (.matchedSelf mid best_score)
              else .ok .noMatch
          | (none, _) => .ok .noMatch

/-- What the search loop does after the cycle's `try/except`. -/
inductive LoopAction where
  | finish (o : CycleOutcome)
  | continueSearch
deriving DecidableEq, Repr

/-- Embedding of the `try/except` around the cycle (app.py lines 317-397):
a completed match path finishes the attempt, a no-match cycle continues,
and ANY store exception is caught, logged, and the loop continues to the
next poll interval. -/
def run_search_cycle (st : CycleStore) (me_elo : ℤ) (me_prefs : Prefs)
    (thr : ℚ) : LoopAction :=
  match cycle_body st me_elo me_prefs thr with
  | .ok .noMatch => .continueSearch
  | .ok o => .finish o
  | .error _ => .continueSearch

/-- Embedding of the enqueue upsert's position outside any exception
handler (app.py lines 295-302): a store failure there aborts the attempt
before the search loop (`rest`) runs. -/
def enqueue_then (enqueue : Except StoreErr Unit) (rest : LoopAction) :
    Except StoreErr LoopAction :=
  tryStep enqueue fun _ => .ok rest

/-- Store of the C2 counterexample: no existing match, one candidate with
rating 1520 (score 7), and a `match_tx` insert that fails; the remaining
operations succeed. -/
def insert_failing_store : CycleStore where
  fetchExistingMatch := .ok none
  lockScanCandidates := .ok [⟨1, "p2", 1520, []⟩]
  insertMatchTx := fun _ _ => .error .transient
  markTicketMatched := fun _ => .ok ()
  deleteOwnQueuedTicket := .ok ()

/-- Value of the decayed threshold after a 40-second wait: 9.0 − 40·0.05 =
7, which the constant score 7 meets. -/
theorem adjusted_threshold_at_forty : adjusted_threshold 40 = 7 := by
  unfold adjusted_threshold INITIAL_COMPAT_THRESHOLD MINIMUM_COMPAT_THRESHOLD
    DECAY_RATE_PER_SECOND
  rw [max_eq_right (by norm_num)]
  norm_num

/-- C2 counterexample: with a candidate clearing the threshold (score 7
against threshold 7) and the contest insert failing, the cycle's outcome is
`continueSearch` — the commit-step store failure is swallowed by the
`except` clause and the loop simply proceeds to the next cycle, contrary to
the claim that it surfaces as a hard failure of the attempt. -/
theorem commit_failure_is_swallowed :
    best_candidate 1500 [] [⟨1, "p2", 1520, []⟩] = (some ⟨1, "p2", 1520, []⟩, 7) ∧
    ((7 : ℚ) ≥ adjusted_threshold 40) ∧
    insert_failing_store.insertMatchTx "p2" 7 = .error .transient ∧
    run_search_cycle insert_failing_store 1500 [] (adjusted_threshold 40) =
      .continueSearch := by
  refine ⟨by decide, ?_, rfl, ?_⟩
  · rw [adjusted_threshold_at_forty]
  · rw [adjusted_threshold_at_forty]
    decide

/-- C2 amended: only an enqueue-phase store failure is surfaced as a hard
failure of the matchmaking attempt; a failure in any of the three commit
statements (contest insert, markMatched update, own-ticket delete) after a
candidate cleared the threshold is caught by the cycle's exception handler
and the loop continues to the next cycle. -/
theorem store_failure_handling (st : CycleStore) (me_elo : ℤ)
    (me_prefs : Prefs) (thr : ℚ) (e : StoreErr) (act : LoopAction) :
    (∀ cands best best_score,
      st.fetchExistingMatch = .ok none →
      st.lockScanCandidates = .ok cands →
      best_candidate me_elo me_prefs cands = (some best, best_score) →
      (best_score : ℚ) ≥ thr →
      st.insertMatchTx best.user_id best_score = .error e →
      run_search_cycle st me_elo me_prefs thr = .continueSearch) ∧
    (∀ cands best best_score mid,
      st.fetchExistingMatch = .ok none →
      st.lockScanCandidates = .ok cands →
      best_candidate me_elo me_prefs cands = (some best, best_score) →
      (best_score : ℚ) ≥ thr →
      st.insertMatchTx best.user_id best_score = .ok mid →
      st.markTicketMatched best.ticket_id = .error e →
      run_search_cycle st me_elo me_prefs thr = .continueSearch) ∧
    (∀ cands best best_score mid,
      st.fetchExistingMatch = .ok none →
      st.lockScanCandidates = .ok cands →
      best_candidate me_elo me_prefs cands = (some best, best_score) →
      (best_score : ℚ) ≥ thr →
      st.insertMatchTx best.user_id best_score = .ok mid →
      st.markTicketMatched best.ticket_id = .ok () →
      st.deleteOwnQueuedTicket = .error e →
      run_search_cycle st me_elo me_prefs thr = .continueSearch) ∧
    (enqueue_then (.error e) act = .error e) := by
  refine ⟨?_, ?_, ?_, rfl⟩
  · intro cands best best_score h1 h2 h3 h4 h5
    simp only [run_search_cycle, cycle_body, h1, h2, tryStep_ok, h3]
    rw [if_pos h4]
    simp only [h5, tryStep_error]
  · intro cands best best_score mid h1 h2 h3 h4 h5 h6
    simp only [run_search_cycle, cycle_body, h1, h2, tryStep_ok, h3]
    rw [if_pos h4]
    simp only [h5, tryStep_ok, h6, tryStep_error]
  · intro cands best best_score mid h1 h2 h3 h4 h5 h6 h7
    simp only [run_search_cycle, cycle_body, h1, h2, tryStep_ok, h3]
    rw [if_pos h4]
    simp only [h5, h6, tryStep_ok, h7, tryStep_error]

/-- Witness for the amended C2 at the insert-failing store with threshold
`adjusted_threshold 40 = 7` and an enqueue failure. -/
theorem store_failure_handling_witness :
    run_search_cycle insert_failing_store 1500 [] (adjusted_threshold 40) =
      .continueSearch ∧
    enqueue_then (.error .transient) .continueSearch = .error .transient :=
  ⟨(store_failure_handling insert_failing_store 1500 [] (adjusted_threshold 40)
      .transient .continueSearch).1
      [⟨1, "p2", 1520, []⟩] ⟨1, "p2", 1520, []⟩ 7
      rfl rfl (by decide) (by rw [adjusted_threshold_at_forty]; norm_num) rfl,
   (store_failure_handling insert_failing_store 1500 [] (adjusted_threshold 40)
      .transient .continueSearch).2.2.2⟩

/-! ## Two concurrent invocations: the commit race (`app.py` lines 304-400)

Model for C1: two players A and B, each running the search loop of
`match_or_queue` concurrently, each the only candidate of the other. Every
loop iteration runs as one store transaction (`with pool.connection()`)
whose candidate scan takes `FOR UPDATE SKIP LOCKED` row locks, so the
per-cycle transactions of the two invocations serialise: the shared state
(two tickets and the `match_tx` rows involving the pair) changes by atomic
cycle steps, interleaved in any order by the scheduler. A cycle step
follows app.py lines 317-392: check for a contest created by the opponent
(then delete the own ticket and finish as "matched by opponent"), else
scan, score, and — if the best candidate clears the decayed threshold —
insert the contest, mark the opponent's ticket matched, and delete the own
ticket. A timeout step closes the own ticket. -/

/-- Profile of one searching player. -/
structure PlayerCtx where
  uid : String
  area : String
  elo : ℤ
  prefs : Prefs
deriving DecidableEq, Repr

/-- The two concurrent engine invocations. -/
inductive Side where
  | A
  | B
deriving DecidableEq, Repr

/-- The opposite invocation. -/
def other : Side → Side
  | .A => .B
  | .B => .A

/-- How a matched terminal outcome was reached: by the opponent's commit
(`matched_by: "opponent"`, app.py line 343) or by this invocation's own
commit (app.py lines 374-392). -/
inductive Provenance where
  | opponent
  | selfInitiated
deriving DecidableEq, Repr

/-- Phase of one engine invocation: still scanning (with its attempt
counter), or finished. -/
inductive ProcPhase where
  | scanning (attempt : ℕ)
  | doneMatched (prov : Provenance)
  | doneTimeout
deriving DecidableEq, Repr

/-- Shared store state of the pair scenario: each player's `mm_ticket` row
(`none` = deleted), the `match_tx` rows involving the pair, and each
invocation's phase. -/
structure PairState where
  tickA : Option TicketStatus
  tickB : Option TicketStatus
  contests : List MatchRow
  procA : ProcPhase
  procB : ProcPhase
deriving DecidableEq, Repr

/-- The profile of a given side. -/
def playerCtx (ctxA ctxB : PlayerCtx) : Side → PlayerCtx
  | .A => ctxA
  | .B => ctxB

/-- The ticket row of a given side. -/
def ticket (s : PairState) : Side → Option TicketStatus
  | .A => s.tickA
  | .B => s.tickB

/-- Replace the ticket row of a given side. -/
def withTicket (s : PairState) : Side → Option TicketStatus → PairState
  | .A, t => { s with tickA := t }
  | .B, t => { s with tickB := t }

/-- The phase of a given side. -/
def phase (s : PairState) : Side → ProcPhase
  | .A => s.procA
  | .B => s.procB

/-- Replace the phase of a given side. -/
def withPhase (s : PairState) : Side → ProcPhase → PairState
  | .A, p => { s with procA := p }
  | .B, p => { s with procB := p }

/-- Embedding of `delete from mm_ticket where user_id=%s and
status='queued'` on one player's row. -/
def deleteQueued (t : Option TicketStatus) : Option TicketStatus :=
  if t = some .queued then none else t

/-- Embedding of `update mm_ticket set status='matched' where id=%s` on the
locked candidate row (scoped by row id, hence unconditional on status; a
no-op if the row is gone). -/
def markMatchedTicket (t : Option TicketStatus) : Option TicketStatus :=
  match t with
  | some _ => some .matched
  | none => none

/-- Embedding of `update mm_ticket set status='closed' where user_id=%s and
status='queued'` on one player's row. -/
def markClosedTicket (t : Option TicketStatus) : Option TicketStatus :=
  if t = some .queued then some .closed else t

/-- The boolean test of the incomplete-contest query (app.py lines
321-327): the row involves the player and is not complete. -/
def matchInvolves (m : MatchRow) (uid : String) : Bool :=
  (m.user_one_id == uid || m.user_two_id == uid) && !m.is_complete

/-- The incomplete-contest query is the first row passing `matchInvolves`. -/
theorem find_incomplete_match_def (rows : List MatchRow) (uid : String) :
    find_incomplete_match rows uid = rows.find? (fun m => matchInvolves m uid) := rfl

/-- The locked candidate scan of one cycle in the pair scenario (app.py
lines 347-360): the opponent's ticket is the only possible row — visible
exactly when it is queued and in the caller's area. -/
def scan_candidates (ctxA ctxB : PlayerCtx) (side : Side) (s : PairState) :
    List Candidate :=
  if ticket s (other side) = some .queued ∧
      (playerCtx ctxA ctxB (other side)).area = (playerCtx ctxA ctxB side).area then
    [⟨0, (playerCtx ctxA ctxB (other side)).uid,
      (playerCtx ctxA ctxB (other side)).elo,
      (playerCtx ctxA ctxB (other side)).prefs⟩]
  else []

/-- One atomic scan-cycle transaction of the invocation `side` at wait time
`w`, with `n` previous attempts (app.py lines 317-392). -/
def engine_cycle (ctxA ctxB : PlayerCtx) (side : Side) (w : ℚ) (n : ℕ)
    (s : PairState) : PairState :=
  match find_incomplete_match s.contests (playerCtx ctxA ctxB side).uid with
  | some _ =>
      withPhase (withTicket s side (deleteQueued (ticket s side))) side
        (.doneMatched .opponent)
  | none =>
      match best_candidate (playerCtx ctxA ctxB side).elo
          (playerCtx ctxA ctxB side).prefs (scan_candidates ctxA ctxB side s) with
      | (some best, best_score) =>
          if (best_score : ℚ) ≥ adjusted_threshold w then
            withPhase
              (withTicket
                (withTicket
                  { s with contests := s.contests ++
                      [⟨s.contests.length + 1, (playerCtx ctxA ctxB side).area,
                        (playerCtx ctxA ctxB side).uid, best.user_id, best_score,
                        false⟩] }
                  (other side) (markMatchedTicket (ticket s (other side))))
                side (deleteQueued (ticket s side)))
              side (.doneMatched .selfInitiated)
          else withPhase s side (.scanning (n + 1))
      | (none, _) => withPhase s side (.scanning (n + 1))

/-- The timeout exit of the invocation `side` (app.py lines 402-409). -/
def engine_timeout (side : Side) (s : PairState) : PairState :=
  withPhase (withTicket s side (markClosedTicket (ticket s side))) side .doneTimeout

/-- Interleaving semantics: at any moment the scheduler lets one
still-scanning invocation run one atomic cycle transaction (at any
non-negative wait time of its own clock), or reach its deadline. -/
inductive PairStep (ctxA ctxB : PlayerCtx) : PairState → PairState → Prop where
  | cycle (side : Side) (w : ℚ) (n : ℕ) (s : PairState) :
      0 ≤ w → phase s side = .scanning n →
      PairStep ctxA ctxB s (engine_cycle ctxA ctxB side w n s)
  | timeout (side : Side) (n : ℕ) (s : PairState) :
      phase s side = .scanning n →
      PairStep ctxA ctxB s (engine_timeout side s)

/-- Initial state of the scenario: both players queued, no contest, both
invocations about to run their first cycle. -/
def pair_init : PairState :=
  { tickA := some .queued, tickB := some .queued, contests := [],
    procA := .scanning 0, procB := .scanning 0 }

/-- States reachable from the initial pair state under any interleaving. -/
def PairReachable (ctxA ctxB : PlayerCtx) (s : PairState) : Prop :=
  Relation.ReflTransGen (PairStep ctxA ctxB) pair_init s

/-- Number of invocations that finished by committing the contest insert
themselves. -/
def selfInitCount (s : PairState) : ℕ :=
  (if s.procA = .doneMatched .selfInitiated then 1 else 0) +
  (if s.procB = .doneMatched .selfInitiated then 1 else 0)

/-- Inductive invariant of the pair scenario: every contest row involves
both players and is incomplete, and the number of contest rows equals the
number of self-committed invocations and never exceeds one. -/
def PairInv (ctxA ctxB : PlayerCtx) (s : PairState) : Prop :=
  (∀ m ∈ s.contests,
    matchInvolves m ctxA.uid = true ∧ matchInvolves m ctxB.uid = true) ∧
  s.contests.length = selfInitCount s ∧
  s.contests.length ≤ 1

/-- Scoring the single opponent candidate: the running best starts at
`(None, -1)` and the constant score 7 beats it, so the fold returns the
opponent with score 7. -/
theorem best_candidate_single (e : ℤ) (p : Prefs) (c : Candidate) :
    best_candidate e p [c] = (some c, 7) := rfl

/-- Scoring an empty candidate batch leaves the initial `(None, -1)`. -/
theorem best_candidate_nil (e : ℤ) (p : Prefs) :
    best_candidate e p [] = (none, -1) := rfl

/-- The candidate scan of the pair scenario returns either nothing or
exactly the opponent. -/
theorem scan_candidates_cases (ctxA ctxB : PlayerCtx) (side : Side) (s : PairState) :
    scan_candidates ctxA ctxB side s = [] ∨
    scan_candidates ctxA ctxB side s =
      [⟨0, (playerCtx ctxA ctxB (other side)).uid,
        (playerCtx ctxA ctxB (other side)).elo,
        (playerCtx ctxA ctxB (other side)).prefs⟩] := by
  unfold scan_candidates
  split
  · exact Or.inr rfl
  · exact Or.inl rfl

/-- Restoring a side's own ticket is the identity. -/
theorem withTicket_self (s : PairState) (side : Side) :
    withTicket s side (ticket s side) = s := by
  cases side <;> rfl

/-- Ticket updates leave the contest table unchanged. -/
theorem contests_withTicket (s : PairState) (side : Side) (t : Option TicketStatus) :
    (withTicket s side t).contests = s.contests := by
  cases side <;> rfl

/-- Phase updates leave the contest table unchanged. -/
theorem contests_withPhase (s : PairState) (side : Side) (p : ProcPhase) :
    (withPhase s side p).contests = s.contests := by
  cases side <;> rfl

/-- Replacing the contest table is what it says. -/
theorem contests_set (s : PairState) (c : List MatchRow) :
    ({ s with contests := c } : PairState).contests = c := rfl

/-- Reading back a phase just written. -/
theorem phase_withPhase (s : PairState) (side : Side) (p : ProcPhase) :
    phase (withPhase s side p) side = p := by
  cases side <;> rfl

/-- Ticket updates do not change phases. -/
theorem phase_withTicket (s : PairState) (s1 s2 : Side) (t : Option TicketStatus) :
    phase (withTicket s s1 t) s2 = phase s s2 := by
  cases s1 <;> cases s2 <;> rfl

/-- Ticket updates do not change the committed count. -/
theorem selfInitCount_withTicket (s : PairState) (side : Side) (t : Option TicketStatus) :
    selfInitCount (withTicket s side t) = selfInitCount s := by
  cases side <;> rfl

/-- If no invocation has committed yet, neither side's phase is the
self-committed one. -/
theorem selfInitCount_zero (s : PairState) (h : selfInitCount s = 0) (side : Side) :
    phase s side ≠ ProcPhase.doneMatched .selfInitiated := by
  unfold selfInitCount at h
  cases side <;> intro hc <;> simp only [phase] at hc <;> rw [hc] at h <;> simp at h

/-- A cycle step that leaves the contest table alone and moves the stepping
side from scanning to any non-self-committed phase preserves the pair
invariant. -/
theorem pair_inv_update (ctxA ctxB : PlayerCtx) (s : PairState) (side : Side)
    (t : Option TicketStatus) (p : ProcPhase) (n : ℕ)
    (hp : p ≠ ProcPhase.doneMatched .selfInitiated)
    (hphase : phase s side = .scanning n)
    (inv : PairInv ctxA ctxB s) :
    PairInv ctxA ctxB (withPhase (withTicket s side t) side p) := by
  obtain ⟨hinv, hcount, hlen⟩ := inv
  refine ⟨?_, ?_, ?_⟩
  · rw [contests_withPhase, contests_withTicket]
    exact hinv
  · rw [contests_withPhase, contests_withTicket, hcount]
    cases side
    · simp only [phase] at hphase
      simp [selfInitCount, withPhase, withTicket, hphase, hp]
    · simp only [phase] at hphase
      simp [selfInitCount, withPhase, withTicket, hphase, hp]
  · rw [contests_withPhase, contests_withTicket]
    exact hlen

/-- The timeout exit preserves the pair invariant. -/
theorem pair_inv_timeout (ctxA ctxB : PlayerCtx) (side : Side) (n : ℕ)
    (s : PairState) (hphase : phase s side = .scanning n)
    (inv : PairInv ctxA ctxB s) :
    PairInv ctxA ctxB (engine_timeout side s) :=
  pair_inv_update ctxA ctxB s side _ _ n (by simp) hphase inv

/-- When the incomplete-contest check of step 1 comes back empty, the
contest table of the pair scenario is empty outright (every row would
involve the caller). -/
theorem contests_nil_of_find_none (ctxA ctxB : PlayerCtx) (side : Side)
    (s : PairState)
    (hinv : ∀ m ∈ s.contests,
      matchInvolves m ctxA.uid = true ∧ matchInvolves m ctxB.uid = true)
    (hfind : find_incomplete_match s.contests (playerCtx ctxA ctxB side).uid = none) :
    s.contests = [] := by
  cases hcs : s.contests with
  | nil => rfl
  | cons m ms =>
      exfalso
      have hmem : m ∈ s.contests := by
        rw [hcs]; exact List.mem_cons_self m ms
      have hm := hinv m hmem
      have hmm : matchInvolves m (playerCtx ctxA ctxB side).uid = true := by
        cases side
        · exact hm.1
        · exact hm.2
      have hnone := List.find?_eq_none.mp
        (by rw [← find_incomplete_match_def]; exact hfind) m hmem
      exact hnone hmm

/-- One scan-cycle transaction preserves the pair invariant: the self-match
path and the no-commit paths leave the contest table alone, and the commit
path only fires on an empty contest table, adding exactly the one row whose
existence the stepping side's self-committed phase then accounts for. -/
theorem pair_inv_cycle (ctxA ctxB : PlayerCtx) (side : Side) (w : ℚ) (n : ℕ)
    (s : PairState) (hphase : phase s side = .scanning n)
    (inv : PairInv ctxA ctxB s) :
    PairInv ctxA ctxB (engine_cycle ctxA ctxB side w n s) := by
  obtain ⟨hinv, hcount, hlen⟩ := inv
  unfold engine_cycle
  cases hfind : find_incomplete_match s.contests (playerCtx ctxA ctxB side).uid with
  | some m =>
      exact pair_inv_update ctxA ctxB s side _ _ n (by simp) hphase ⟨hinv, hcount, hlen⟩
  | none =>
      have hempty := contests_nil_of_find_none ctxA ctxB side s hinv hfind
      have hz : selfInitCount s = 0 := by
        rw [← hcount, hempty]
        rfl
      rcases scan_candidates_cases ctxA ctxB side s with hsc | hsc <;> rw [hsc]
      · rw [best_candidate_nil]
        have h := pair_inv_update ctxA ctxB s side (ticket s side)
          (.scanning (n + 1)) n (by simp) hphase ⟨hinv, hcount, hlen⟩
        rw [withTicket_self] at h
        exact h
      · simp only [best_candidate_single]
        by_cases hthr : (((7 : ℤ) : ℚ) ≥ adjusted_threshold w)
        · rw [if_pos hthr]
          have hother := selfInitCount_zero s hz (other side)
          refine ⟨?_, ?_, ?_⟩
          · intro m hm
            rw [contests_withPhase, contests_withTicket, contests_withTicket,
              contests_set, hempty] at hm
            simp at hm
            subst hm
            cases side
            · exact ⟨by simp [matchInvolves, playerCtx], by simp [matchInvolves, playerCtx, other]⟩
            · exact ⟨by simp [matchInvolves, playerCtx, other], by simp [matchInvolves, playerCtx]⟩
          · rw [contests_withPhase, contests_withTicket, contests_withTicket,
              contests_set, hempty]
            cases side
            · simp only [other, phase] at hother
              simp [selfInitCount, withPhase, withTicket, other, ticket, hother]
            · simp only [other, phase] at hother
              simp [selfInitCount, withPhase, withTicket, other, ticket, hother]
          · rw [contests_withPhase, contests_withTicket, contests_withTicket,
              contests_set, hempty]
            simp
        · rw [if_neg hthr]
          have h := pair_inv_update ctxA ctxB s side (ticket s side)
            (.scanning (n + 1)) n (by simp) hphase ⟨hinv, hcount, hlen⟩
          rw [withTicket_self] at h
          exact h

/-- The pair invariant holds in every state reachable under any
interleaving of the two invocations. -/
theorem pair_inv_reachable (ctxA ctxB : PlayerCtx) (s : PairState)
    (hr : PairReachable ctxA ctxB s) : PairInv ctxA ctxB s := by
  induction hr with
  | refl =>
      refine ⟨?_, rfl, by simp [pair_init]⟩
      intro m hm
      simp [pair_init] at hm
  | tail hsteps hstep ih =>
      cases hstep with
      | cycle side w n s hw hphase =>
          exact pair_inv_cycle ctxA ctxB side w n _ hphase ih
      | timeout side n s hphase =>
          exact pair_inv_timeout ctxA ctxB side n _ hphase ih

/-- C1: under every interleaving of two concurrent matchmaking invocations
that have only each other as candidates, at most one `match_tx` row ever
exists, and the number of rows equals the number of invocations that
committed the insert themselves — so the two sides can never both have
committed; moreover, once a contest row exists, any further cycle of a
still-scanning side takes the step-1 self-match path: it finishes as
"matched by opponent" and leaves the contest table unchanged instead of
creating a duplicate. -/
theorem pair_commit_race_safety (ctxA ctxB : PlayerCtx) (s : PairState)
    (hr : PairReachable ctxA ctxB s) :
    s.contests.length ≤ 1 ∧
    s.contests.length = selfInitCount s ∧
    ¬ (s.procA = .doneMatched .selfInitiated ∧
       s.procB = .doneMatched .selfInitiated) ∧
    (∀ side w n, phase s side = .scanning n → s.contests ≠ [] →
      phase (engine_cycle ctxA ctxB side w n s) side = .doneMatched .opponent ∧
      (engine_cycle ctxA ctxB side w n s).contests = s.contests) := by
  obtain ⟨hinv, hcount, hlen⟩ := pair_inv_reachable ctxA ctxB s hr
  refine ⟨hlen, hcount, ?_, ?_⟩
  · rintro ⟨hA, hB⟩
    rw [hcount] at hlen
    simp [selfInitCount, hA, hB] at hlen
  · intro side w n hphase hne
    obtain ⟨m, ms, hcs⟩ : ∃ m ms, s.contests = m :: ms := by
      cases hcs : s.contests with
      | nil => exact absurd hcs hne
      | cons a as => exact ⟨a, as, rfl⟩
    have hmem : m ∈ s.contests := by
      rw [hcs]; exact List.mem_cons_self m ms
    have hm := hinv m hmem
    have hmm : matchInvolves m (playerCtx ctxA ctxB side).uid = true := by
      cases side
      · exact hm.1
      · exact hm.2
    have hfind : find_incomplete_match s.contests (playerCtx ctxA ctxB side).uid
        = some m := by
      rw [find_incomplete_match_def, hcs]
      exact List.find?_cons_of_pos _ hmm
    unfold engine_cycle
    rw [hfind]
    refine ⟨?_, ?_⟩
    · show phase (withPhase (withTicket s side (deleteQueued (ticket s side))) side
        (.doneMatched .opponent)) side = .doneMatched .opponent
      exact phase_withPhase _ _ _
    · show (withPhase (withTicket s side (deleteQueued (ticket s side))) side
        (.doneMatched .opponent)).contests = s.contests
      rw [contests_withPhase, contests_withTicket]

/-- Player A of the C1 witness scenario. -/
def ctx_p1 : PlayerCtx := ⟨"p1", "north", 1500, []⟩

/-- Player B of the C1 witness scenario. -/
def ctx_p2 : PlayerCtx := ⟨"p2", "north", 1520, []⟩

/-- Witness for C1 at the state reached after invocation A runs one cycle
at wait 40 (threshold decayed to 7, so A commits the contest insert). -/
theorem pair_commit_race_safety_witness :
    (engine_cycle ctx_p1 ctx_p2 .A 40 0 pair_init).contests.length ≤ 1 ∧
    (engine_cycle ctx_p1 ctx_p2 .A 40 0 pair_init).contests.length =
      selfInitCount (engine_cycle ctx_p1 ctx_p2 .A 40 0 pair_init) ∧
    ¬ ((engine_cycle ctx_p1 ctx_p2 .A 40 0 pair_init).procA =
         .doneMatched .selfInitiated ∧
       (engine_cycle ctx_p1 ctx_p2 .A 40 0 pair_init).procB =
         .doneMatched .selfInitiated) :=
  have h := pair_commit_race_safety ctx_p1 ctx_p2 _
    (Relation.ReflTransGen.single
      (PairStep.cycle .A 40 0 pair_init (by norm_num) rfl))
  ⟨h.1, h.2.1, h.2.2.1⟩

end RunOnes
